import Mathlib

/-!
Shallow embedding of the core of the `rust-riscv-emu` RISC-V emulator
(RV32 instantiation), translated from the Rust sources:

* `src/exception.rs`   — exception cause codes
* `src/memory.rs`      — memory bus errors, the RAM/ROM adapter
* `src/register.rs`    — the standalone register file
* `src/hart.rs`        — the single-threaded user hart
* `src/exec/exec_32.rs`— the RV32 executor (fetch faults, branches, jumps,
                         division, CSR operations)
* `src/raw_instruction.rs` — instruction length classification
* `src/data.rs`        — NaN-boxed float storage (modelled at the bit level)

Machine integers are modelled as `Nat` carrying the invariant of being
below `2 ^ 32` (or `2 ^ 64` for float bit patterns), with wrapping made
explicit through `% 2 ^ 32`.
-/

namespace RiscvEmu

/-- Wrap a natural number to 32 bits, mirroring `u32` wrapping arithmetic. -/
def wrap32 (n : Nat) : Nat := n % 2 ^ 32

/-- Interpret a `u32` bit pattern as an `i32` (two's complement), mirroring
`u32::to_signed` in `src/data.rs` (a bitwise `transmute`). -/
def toSigned (n : Nat) : Int := if n < 2 ^ 31 then (n : Int) else (n : Int) - 2 ^ 32

/-- Interpret an `i32` value as its `u32` bit pattern (two's complement),
mirroring `u32::from_signed` in `src/data.rs` (a bitwise `transmute`). -/
def ofSigned (i : Int) : Nat := (i % 2 ^ 32).toNat

/-- Exception cause codes, from `src/exception.rs` (`ExceptionCause`). -/
inductive ExceptionCause where
  | InstructionAddressMisaligned
  | InstructionAccessFault
  | IllegalInstruction
  | Breakpoint
  | LoadAddressMisaligned
  | LoadAccessFault
  | StoreAddressMisaligned
  | StoreAccessFault
  | ECallFromUser
  | ECallFromSupervisor
  | ECallFromMachine
  | InstructionPageFault
  | LoadPageFault
  | StorePageFault
deriving DecidableEq, Repr

/-- The numeric discriminant of each exception cause, as assigned in
`src/exception.rs` (the value written to the cause CSR). -/
def ExceptionCause.code : ExceptionCause → Nat
  | .InstructionAddressMisaligned => 0
  | .InstructionAccessFault => 1
  | .IllegalInstruction => 2
  | .Breakpoint => 3
  | .LoadAddressMisaligned => 4
  | .LoadAccessFault => 5
  | .StoreAddressMisaligned => 6
  | .StoreAccessFault => 7
  | .ECallFromUser => 8
  | .ECallFromSupervisor => 9
  | .ECallFromMachine => 11
  | .InstructionPageFault => 12
  | .LoadPageFault => 13
  | .StorePageFault => 15

/-- Ways a memory access can fail, from `src/memory.rs` (`MemoryError`). -/
inductive MemoryError where
  | Misaligned
  | AccessFault
  | PageFault
deriving DecidableEq, Repr

/-- `MemoryError::as_code_load_cause` from `src/memory.rs`. -/
def MemoryError.as_code_load_cause : MemoryError → ExceptionCause
  | .Misaligned => .InstructionAddressMisaligned
  | .AccessFault => .InstructionAccessFault
  | .PageFault => .InstructionPageFault

/-- `MemoryError::as_data_load_cause` from `src/memory.rs`. -/
def MemoryError.as_data_load_cause : MemoryError → ExceptionCause
  | .Misaligned => .LoadAddressMisaligned
  | .AccessFault => .LoadAccessFault
  | .PageFault => .LoadPageFault

/-- `MemoryError::as_data_store_cause` from `src/memory.rs`. -/
def MemoryError.as_data_store_cause : MemoryError → ExceptionCause
  | .Misaligned => .StoreAddressMisaligned
  | .AccessFault => .StoreAccessFault
  | .PageFault => .StorePageFault

/-- Ways a CSR access can fail, from `src/register.rs` (`CSRError`). -/
inductive CSRError where
  | Unsupported
  | Misaligned
  | AccessFault
deriving DecidableEq, Repr

/-- Outcome of one execution step, from `src/exec.rs` (`ExecStatus`),
specialized to 32-bit addresses. -/
inductive ExecStatus where
  | Running
  | WaitingForInterrupt
  | EnvironmentCall (addr : Nat)
  | EnvironmentBreak (addr : Nat)
deriving DecidableEq, Repr

/-- The standalone integer register file from `src/register.rs`
(`Registers`), instantiated at the RV32 storage type (`u32`, modelled as
`Nat`).  `IntRegister` construction rejects numbers above 31, so a register
selector is a `Fin 32`. -/
structure Registers where
  int : Fin 32 → Nat

/-- `Registers::new`: all thirty-two slots zero. -/
def Registers.new : Registers := ⟨fun _ => 0⟩

/-- `Registers::read_int` from `src/register.rs`: register zero always
reads as zero; other registers read their stored slot. -/
def Registers.read_int (rs : Registers) (reg : Fin 32) : Nat :=
  if reg.val = 0 then 0 else rs.int reg

/-- `Registers::write_int` from `src/register.rs`, translated exactly as
written: the `if reg.0 == 0` statement there has an empty body (only a
comment), so the store `self.int[reg.0] = v` runs unconditionally — also
for register zero. -/
def Registers.write_int (rs : Registers) (reg : Fin 32) (v : Nat) : Registers :=
  ⟨fun i => if i = reg then v else rs.int i⟩

/-- The user-level CSR fields held by the single-threaded user hart, from
`src/hart.rs` (`SingleThreadUserHartCSRs`), RV32 instantiation. -/
structure CSRs where
  ustatus : Nat
  uie : Nat
  utvec : Nat
  uscratch : Nat
  uepc : Nat
  ucause : Nat
  utval : Nat
  uip : Nat
  fflags : Nat
  frm : Nat

/-- `SingleThreadUserHart::csrs_at_reset`: every CSR field zero. -/
def CSRs.at_reset : CSRs := ⟨0, 0, 0, 0, 0, 0, 0, 0, 0, 0⟩

/-- The RV32 `SingleThreadUserHart` state from `src/hart.rs`: program
counter, thirty-two integer registers (`u32`), thirty-two float registers
(64-bit patterns), the user CSR set, and an exclusively owned memory bus of
some type `Mem`. -/
structure SingleThreadUserHart (Mem : Type) where
  pc : Nat
  int_regs : Fin 32 → Nat
  float_regs : Fin 32 → Nat
  csrs : CSRs
  mem : Mem

namespace SingleThreadUserHart

variable {Mem : Type}

/-- `read_pc` from `src/hart.rs`. -/
def read_pc (h : SingleThreadUserHart Mem) : Nat := h.pc

/-- `write_pc` from `src/hart.rs`: plain setter, no alignment enforcement. -/
def write_pc (h : SingleThreadUserHart Mem) (v : Nat) : SingleThreadUserHart Mem :=
  { h with pc := v }

/-- `read_int_register` from `src/hart.rs`: a plain array read (the
zero-register rule is enforced on write in this implementation). -/
def read_int_register (h : SingleThreadUserHart Mem) (reg : Fin 32) : Nat :=
  h.int_regs reg

/-- `write_int_register` from `src/hart.rs`: writing register zero is
ignored (this implementation has the early `return`). -/
def write_int_register (h : SingleThreadUserHart Mem) (reg : Fin 32) (v : Nat) :
    SingleThreadUserHart Mem :=
  if reg.val = 0 then h
  else { h with int_regs := fun i => if i = reg then v else h.int_regs i }

/-- `read_float_register` from `src/hart.rs`. -/
def read_float_register (h : SingleThreadUserHart Mem) (reg : Fin 32) : Nat :=
  h.float_regs reg

/-- `write_float_register` from `src/hart.rs`: no zero-register rule. -/
def write_float_register (h : SingleThreadUserHart Mem) (reg : Fin 32) (v : Nat) :
    SingleThreadUserHart Mem :=
  { h with float_regs := fun i => if i = reg then v else h.float_regs i }

/-- `read_csr` from `src/hart.rs`: the match has only the catch-all arm, so
every CSR number reports `Unsupported`. -/
def read_csr (_h : SingleThreadUserHart Mem) (_reg : Nat) : Except CSRError Nat :=
  .error .Unsupported

/-- `write_csr` from `src/hart.rs`: likewise always `Unsupported`. -/
def write_csr (_h : SingleThreadUserHart Mem) (_reg : Nat) (_v : Nat) :
    Except CSRError Unit :=
  .error .Unsupported

/-- `exception` from `src/hart.rs` (RV32 instantiation): mask the two low
bits off `utvec` (`vec_raw & !mask` with `mask = 0b11`, so the `u32`
complement of the mask is `0xFFFFFFFC`), set the PC to that base, and
record the cause code in `ucause` (`from_unsigned_word` is the identity on
`u32`).  Only direct trap vector mode is implemented. -/
def exception (h : SingleThreadUserHart Mem) (cause : ExceptionCause) :
    SingleThreadUserHart Mem :=
  let vec_raw := h.csrs.utvec
  let vec_base := vec_raw &&& 0xFFFFFFFC
  { h with pc := vec_base, csrs := { h.csrs with ucause := cause.code } }

end SingleThreadUserHart

/-- The fetch-fault cause conversion written inline in `step_rv32`
(`src/exec/exec_32.rs`, the `Err` arm of the fetch): note that this match,
as written in the source, sends `AccessFault` to `InstructionPageFault`. -/
def step_rv32_fetch_cause : MemoryError → ExceptionCause
  | .Misaligned => .InstructionAddressMisaligned
  | .AccessFault => .InstructionPageFault
  | .PageFault => .InstructionPageFault

/-- The fetch-fault path of `step_rv32` (`src/exec/exec_32.rs`): when the
instruction fetch returns a bus error, the hart's `exception` entry runs
with the converted cause and the step reports `Running`. -/
def step_rv32_fetch_fault {Mem : Type} (h : SingleThreadUserHart Mem)
    (e : MemoryError) : SingleThreadUserHart Mem × ExecStatus :=
  (h.exception (step_rv32_fetch_cause e), .Running)

/-- The decoded-instruction context handed to each executor function.  The
executors in `src/exec/exec_32.rs` read only the fetch PC (`inst.pc`) and
the decoded length in bytes (`inst.length`) from it; the operation tag has
already been dispatched on, so it is elided here. -/
structure Instruction where
  pc : Nat
  length : Nat

section Exec32

variable {Mem : Type}

/-- The pre-advance of the program counter performed by `step_rv32`
(`src/exec/exec_32.rs`): after a successful fetch and decode at `pc`, the
hart's PC is set to `pc.wrapping_add(inst.length)` before the operation is
dispatched. -/
def step_rv32_pre_advance (h : SingleThreadUserHart Mem) (length : Nat) :
    SingleThreadUserHart Mem :=
  h.write_pc (wrap32 (h.pc + length))

/-- `exec_branch_binary_cond` from `src/exec/exec_32.rs`: read `rs1` and
`rs2`, and when the callback condition holds, set the PC to the instruction
PC plus the sign-converted immediate (wrapping).  Otherwise the
pre-advanced PC is left in place. -/
def exec_branch_binary_cond (h : SingleThreadUserHart Mem) (inst : Instruction)
    (rs1 rs2 : Fin 32) (simm : Int) (callback : Nat → Nat → Bool) :
    SingleThreadUserHart Mem × ExecStatus :=
  let a := h.read_int_register rs1
  let b := h.read_int_register rs2
  if callback a b then
    (h.write_pc (wrap32 (inst.pc + ofSigned simm)), .Running)
  else
    (h, .Running)

/-- `exec_beq` from `src/exec/exec_32.rs`. -/
def exec_beq (h : SingleThreadUserHart Mem) (inst : Instruction)
    (rs1 rs2 : Fin 32) (simm : Int) : SingleThreadUserHart Mem × ExecStatus :=
  exec_branch_binary_cond h inst rs1 rs2 simm fun a b => a == b

/-- `exec_bne` from `src/exec/exec_32.rs`. -/
def exec_bne (h : SingleThreadUserHart Mem) (inst : Instruction)
    (rs1 rs2 : Fin 32) (simm : Int) : SingleThreadUserHart Mem × ExecStatus :=
  exec_branch_binary_cond h inst rs1 rs2 simm fun a b => a != b

/-- `exec_blt` from `src/exec/exec_32.rs` (signed comparison). -/
def exec_blt (h : SingleThreadUserHart Mem) (inst : Instruction)
    (rs1 rs2 : Fin 32) (simm : Int) : SingleThreadUserHart Mem × ExecStatus :=
  exec_branch_binary_cond h inst rs1 rs2 simm fun a b =>
    decide (toSigned a < toSigned b)

/-- `exec_bge` from `src/exec/exec_32.rs` (signed comparison). -/
def exec_bge (h : SingleThreadUserHart Mem) (inst : Instruction)
    (rs1 rs2 : Fin 32) (simm : Int) : SingleThreadUserHart Mem × ExecStatus :=
  exec_branch_binary_cond h inst rs1 rs2 simm fun a b =>
    decide (toSigned b ≤ toSigned a)

/-- `exec_bltu` from `src/exec/exec_32.rs` (unsigned comparison). -/
def exec_bltu (h : SingleThreadUserHart Mem) (inst : Instruction)
    (rs1 rs2 : Fin 32) (simm : Int) : SingleThreadUserHart Mem × ExecStatus :=
  exec_branch_binary_cond h inst rs1 rs2 simm fun a b => decide (a < b)

/-- `exec_bgeu` from `src/exec/exec_32.rs` (unsigned comparison). -/
def exec_bgeu (h : SingleThreadUserHart Mem) (inst : Instruction)
    (rs1 rs2 : Fin 32) (simm : Int) : SingleThreadUserHart Mem × ExecStatus :=
  exec_branch_binary_cond h inst rs1 rs2 simm fun a b => decide (b ≤ a)

/-- `exec_jal` from `src/exec/exec_32.rs`: write the return address
(instruction PC plus length, wrapping) to `rd`, then set the PC to the
instruction PC plus the sign-converted immediate (wrapping). -/
def exec_jal (h : SingleThreadUserHart Mem) (inst : Instruction)
    (rd : Fin 32) (simm : Int) : SingleThreadUserHart Mem × ExecStatus :=
  let ret_pc := wrap32 (inst.pc + inst.length)
  let h1 := h.write_int_register rd ret_pc
  let new_pc := wrap32 (inst.pc + ofSigned simm)
  (h1.write_pc new_pc, .Running)

/-- `exec_jalr` from `src/exec/exec_32.rs`: set the PC to `rs1` plus the
sign-converted immediate with the lowest bit cleared (the source masks with
`0b…11110`), then write the return address to `rd`.  The base register is
read before `rd` is written, as in the source. -/
def exec_jalr (h : SingleThreadUserHart Mem) (inst : Instruction)
    (rd rs1 : Fin 32) (simm : Int) : SingleThreadUserHart Mem × ExecStatus :=
  let base_addr := h.read_int_register rs1
  let new_pc := wrap32 (base_addr + ofSigned simm) &&& 0xFFFFFFFE
  let h1 := h.write_pc new_pc
  let ret_pc := wrap32 (inst.pc + inst.length)
  (h1.write_int_register rd ret_pc, .Running)

/-- `exec_binary_op` from `src/exec/exec_32.rs`: read both source
registers, apply the callback, write the result to `rd`. -/
def exec_binary_op (h : SingleThreadUserHart Mem) (rd rs1 rs2 : Fin 32)
    (callback : Nat → Nat → Nat) : SingleThreadUserHart Mem × ExecStatus :=
  let a := h.read_int_register rs1
  let b := h.read_int_register rs2
  (h.write_int_register rd (callback a b), .Running)

/-- The division callback of `exec_div` in `src/exec/exec_32.rs`: division
by zero produces all-ones; the most negative value divided by minus one
overflows to itself; otherwise the truncating signed quotient.  Rust's `/`
on `i32` truncates toward zero, which is `Int.tdiv`. -/
def div_op (a b : Nat) : Nat :=
  let aw := toSigned a
  let bw := toSigned b
  if bw = 0 then 0xffffffff
  else if aw = -2147483648 ∧ bw = -1 then ofSigned (-2147483648)
  else ofSigned (aw.tdiv bw)

/-- The division callback of `exec_divu` in `src/exec/exec_32.rs`. -/
def divu_op (a b : Nat) : Nat :=
  if b = 0 then 0xffffffff
  else a / b

/-- The remainder callback of `exec_rem` in `src/exec/exec_32.rs`:
division by zero produces the dividend; the overflow case produces zero;
otherwise the truncating signed remainder (`Int.tmod`, matching Rust's `%`
on `i32`). -/
def rem_op (a b : Nat) : Nat :=
  let aw := toSigned a
  let bw := toSigned b
  if bw = 0 then ofSigned aw
  else if aw = -2147483648 ∧ bw = -1 then ofSigned 0
  else ofSigned (aw.tmod bw)

/-- The remainder callback of `exec_remu` in `src/exec/exec_32.rs`. -/
def remu_op (a b : Nat) : Nat :=
  if b = 0 then a
  else a % b

/-- `exec_div` from `src/exec/exec_32.rs`. -/
def exec_div (h : SingleThreadUserHart Mem) (rd rs1 rs2 : Fin 32) :
    SingleThreadUserHart Mem × ExecStatus :=
  exec_binary_op h rd rs1 rs2 div_op

/-- `exec_divu` from `src/exec/exec_32.rs`. -/
def exec_divu (h : SingleThreadUserHart Mem) (rd rs1 rs2 : Fin 32) :
    SingleThreadUserHart Mem × ExecStatus :=
  exec_binary_op h rd rs1 rs2 divu_op

/-- `exec_rem` from `src/exec/exec_32.rs`. -/
def exec_rem (h : SingleThreadUserHart Mem) (rd rs1 rs2 : Fin 32) :
    SingleThreadUserHart Mem × ExecStatus :=
  exec_binary_op h rd rs1 rs2 rem_op

/-- `exec_remu` from `src/exec/exec_32.rs`. -/
def exec_remu (h : SingleThreadUserHart Mem) (rd rs1 rs2 : Fin 32) :
    SingleThreadUserHart Mem × ExecStatus :=
  exec_binary_op h rd rs1 rs2 remu_op

/-- `exec_load_mem` from `src/exec/exec_32.rs`: compute the address as
`rs1` plus the sign-converted offset (wrapping), run the width-specific bus
callback under `with_memory`, then either write the loaded value to `rd`
or raise the data-load exception for the returned fault. -/
def exec_load_mem (h : SingleThreadUserHart Mem) (rd rs1 : Fin 32) (simm : Int)
    (callback : Mem → Nat → Except MemoryError Nat × Mem) :
    SingleThreadUserHart Mem × ExecStatus :=
  let base_addr := h.read_int_register rs1
  let addr := wrap32 (base_addr + ofSigned simm)
  let (result, mem1) := callback h.mem addr
  let h1 := { h with mem := mem1 }
  match result with
  | .ok v => (h1.write_int_register rd v, .Running)
  | .error e => (h1.exception e.as_data_load_cause, .Running)

/-- `exec_store_mem` from `src/exec/exec_32.rs`: read the value from `rs2`
and the base from `rs1`, run the width-specific bus callback, and on fault
raise the data-store exception. -/
def exec_store_mem (h : SingleThreadUserHart Mem) (rs1 rs2 : Fin 32) (simm : Int)
    (callback : Mem → Nat → Nat → Except MemoryError Unit × Mem) :
    SingleThreadUserHart Mem × ExecStatus :=
  let v := h.read_int_register rs2
  let base_addr := h.read_int_register rs1
  let addr := wrap32 (base_addr + ofSigned simm)
  let (result, mem1) := callback h.mem addr v
  let h1 := { h with mem := mem1 }
  match result with
  | .ok _ => (h1, .Running)
  | .error e => (h1.exception e.as_data_store_cause, .Running)

end Exec32

/-- The slice of the `Hart` trait (`src/hart.rs`) that the CSR executors
use.  `exec_csrrs` and `exec_csrrw` in `src/exec/exec_32.rs` are generic
over any implementation of this trait, so they are embedded here against an
abstract state type `H` with these three operations. -/
structure HartOps (H : Type) where
  read_csr : H → Nat → Except CSRError Nat
  write_int_register : H → Fin 32 → Nat → H
  exception : H → ExceptionCause → H

/-- `exec_csrrs` from `src/exec/exec_32.rs`, translated exactly as written:
only the `rs1 == 0` (pure read) arm is implemented; it reads the CSR and
writes the old value to `rd` on success, or raises `IllegalInstruction` on
a CSR error.  For every other `rs1` the function raises
`IllegalInstruction` (the source marks this arm with a TODO comment) and
performs no CSR access.  The step result is `Running` in every case. -/
def exec_csrrs {H : Type} (ops : HartOps H) (h : H) (rd rs1 : Fin 32)
    (csr : Nat) : H × ExecStatus :=
  if rs1.val = 0 then
    match ops.read_csr h csr with
    | .ok result => (ops.write_int_register h rd result, .Running)
    | .error _ => (ops.exception h .IllegalInstruction, .Running)
  else
    (ops.exception h .IllegalInstruction, .Running)

/-- `exec_csrrw` from `src/exec/exec_32.rs`, translated exactly as written:
the body is a TODO stub that raises `IllegalInstruction` for every input
and performs no CSR access. -/
def exec_csrrw {H : Type} (ops : HartOps H) (h : H) (_rd _rs1 : Fin 32)
    (_csr : Nat) : H × ExecStatus :=
  (ops.exception h .IllegalInstruction, .Running)

/-- The `HartOps` slice of `SingleThreadUserHart` (`src/hart.rs`). -/
def singleThreadUserHartOps (Mem : Type) : HartOps (SingleThreadUserHart Mem) where
  read_csr := SingleThreadUserHart.read_csr
  write_int_register := SingleThreadUserHart.write_int_register
  exception := SingleThreadUserHart.exception

/-- The RAM/ROM adapter from `src/memory.rs` (`Memory`): a byte buffer
(each entry a `u8`, so below 256) and a writability flag. -/
structure Memory where
  buf : List Nat
  writable : Bool

/-- `Memory::new_ram` from `src/memory.rs`. -/
def Memory.new_ram (buf : List Nat) : Memory := ⟨buf, true⟩

/-- `Memory::new_rom` from `src/memory.rs`. -/
def Memory.new_rom (buf : List Nat) : Memory := ⟨buf, false⟩

/-- The read loop shared by `read_byte`/`read_halfword`/`read_word`/
`read_longword`/`read_quadword` in `src/memory.rs`: for `s` in `0..n`,
OR in `buf[(addr + s) % buf.len()]` shifted left by `s * 8`.  (The source
repeats this loop per width with `n` fixed to the width in bytes.) -/
def readBytesAcc (buf : List Nat) (addr : Nat) : Nat → Nat
  | 0 => 0
  | s + 1 =>
    readBytesAcc buf addr s ||| (buf.getD ((addr + s) % buf.length) 0) <<< (s * 8)

/-- A `Memory` read of `n` bytes starting at `addr`, as performed by the
width-specific readers in `src/memory.rs`; reads never fault in this
adapter.  (`read_word` is this with `n = 4`, and so on.) -/
def Memory.read_bytes (m : Memory) (addr n : Nat) : Except MemoryError Nat :=
  .ok (readBytesAcc m.buf addr n)

/-- `Memory::read_word` from `src/memory.rs`. -/
def Memory.read_word (m : Memory) (addr : Nat) : Except MemoryError Nat :=
  m.read_bytes addr 4

/-- The write loop shared by the width-specific writers in
`src/memory.rs`: for `s` in `0..n`, store `(data >> (s * 8)) & 0xff` at
index `(addr + s) % l`, where `l` is the buffer length captured before the
loop (writes preserve the length, so it is constant throughout). -/
def writeBytesAcc (buf : List Nat) (l addr data : Nat) : Nat → List Nat
  | 0 => buf
  | s + 1 =>
    (writeBytesAcc buf l addr data s).set ((addr + s) % l) ((data >>> (s * 8)) &&& 0xff)

/-- A `Memory` write of `n` bytes of `data` starting at `addr`, as
performed by the width-specific writers in `src/memory.rs`: a
non-writable memory (ROM) returns `AccessFault` before touching the
buffer; a writable one (RAM) stores the bytes little-endian.  The second
component is the memory after the call (mirroring `&mut self`). -/
def Memory.write_bytes (m : Memory) (addr data n : Nat) :
    Except MemoryError Unit × Memory :=
  if !m.writable then (.error .AccessFault, m)
  else (.ok (), { m with buf := writeBytesAcc m.buf m.buf.length addr data n })

/-- `Memory::write_word` from `src/memory.rs`. -/
def Memory.write_word (m : Memory) (addr data : Nat) :
    Except MemoryError Unit × Memory :=
  m.write_bytes addr data 4

/-- `Memory::write_byte` from `src/memory.rs`: the single-byte writer
stores `data` directly (no shift loop) at `addr % l`. -/
def Memory.write_byte (m : Memory) (addr data : Nat) :
    Except MemoryError Unit × Memory :=
  if !m.writable then (.error .AccessFault, m)
  else (.ok (), { m with buf := m.buf.set (addr % m.buf.length) data })

/-- `instruction_length` from `src/raw_instruction.rs`: classify the total
instruction length in bytes from the low 16-bit parcel, using the RISC-V
length-encoding scheme.  Zero marks the reserved (at least 192-bit)
encoding. -/
def instruction_length (low_parcel : Nat) : Nat :=
  if low_parcel &&& 0b11 ≠ 0b11 then 2
  else if low_parcel &&& 0b11111 ≠ 0b11111 then 4
  else if low_parcel &&& 0b111111 = 0b011111 then 6
  else if low_parcel &&& 0b1111111 = 0b0111111 then 8
  else if low_parcel &&& 0b1111111 = 0b1111111 ∧
      low_parcel &&& 0b111000000000000 ≠ 0b111000000000000 then
    10 + ((low_parcel >>> 12) &&& 0b111) * 2
  else 0

/-- Modelled from the spec: the length classification rule as the spec
states it, with bit fields written as division and remainder — bits
`[1:0]` are `p % 4`, bits `[4:0]` are `p % 32`, bits `[5:0]` are `p % 64`,
bits `[6:0]` are `p % 128`, and bits `[14:12]` are `(p / 4096) % 8`.  This
is the comparison definition for the refinement claim about
`instruction_length`. -/
def instruction_length_spec (p : Nat) : Nat :=
  if p % 4 ≠ 3 then 2
  else if p % 32 ≠ 31 then 4
  else if p % 64 = 31 then 6
  else if p % 128 = 63 then 8
  else if p % 128 = 127 ∧ (p / 4096) % 8 ≠ 7 then 10 + 2 * ((p / 4096) % 8)
  else 0

/-- `Float::from_single` for the `f64` implementation in `src/data.rs`,
at the bit level: the 32 bits of the single-precision value are kept in
the low half and the high 32 bits are set to all ones (the NaN box).  The
argument is the `u32` bit pattern of the `f32` value. -/
def float_from_single (s : Nat) : Nat := s ||| 0xffffffff00000000

/-- `Float::to_single` for the `f64` implementation in `src/data.rs`, at
the bit level: discard the high 32 bits (`bits64 as u32`). -/
def float_to_single (d : Nat) : Nat := d % 2 ^ 32

/-- `Float::from_double` for the `f64` implementation in `src/data.rs`:
the identity on the 64-bit pattern. -/
def float_from_double (d : Nat) : Nat := d

/-- `Float::to_double` for the `f64` implementation in `src/data.rs`: the
identity on the 64-bit pattern. -/
def float_to_double (d : Nat) : Nat := d

/-- A 64-bit pattern is a quiet NaN when its exponent field (bits 62..52)
is all ones and the top mantissa bit (bit 51) is set. -/
def is_quiet_nan64 (b : Nat) : Prop :=
  (b / 2 ^ 52) % 2 ^ 11 = 0x7ff ∧ (b / 2 ^ 51) % 2 = 1

/-- A concrete reset-state hart over a trivial bus, used to evaluate the
executor at specific inputs. -/
def hart0 : SingleThreadUserHart Unit :=
  ⟨0, fun _ => 0, fun _ => 0, CSRs.at_reset, ()⟩

/-- A concrete hart at PC `0x100` whose registers `x1` and `x2` both hold
8, used to evaluate the branch and jump executors. -/
def hart5 : SingleThreadUserHart Unit :=
  ⟨0x100, fun i => if i.val = 1 ∨ i.val = 2 then 8 else 0, fun _ => 0, CSRs.at_reset, ()⟩

/-- A minimal implementation of the `Hart` trait slice used by the CSR
executors, with every CSR supported: `read_csr` always succeeds with the
stored value, integer-register writes follow the zero-register rule, and
`exception` records the raised cause.  `exec_csrrs`/`exec_csrrw` in the
source are generic over any `Hart` implementation, so this instance can
observe their behavior on a hart that does support CSRs. -/
structure TestCsrHart where
  int_regs : Fin 32 → Nat
  csr_file : Nat → Nat
  trapped : List ExceptionCause

/-- The `HartOps` interface of `TestCsrHart`. -/
def testCsrHartOps : HartOps TestCsrHart where
  read_csr := fun h n => .ok (h.csr_file n)
  write_int_register := fun h r v =>
    if r.val = 0 then h
    else { h with int_regs := fun i => if i = r then v else h.int_regs i }
  exception := fun h c => { h with trapped := c :: h.trapped }

/-- A concrete `TestCsrHart` whose registers are all zero and whose CSRs
all hold the value 7, with no exception recorded. -/
def testCsrHart0 : TestCsrHart := ⟨fun _ => 0, fun _ => 7, []⟩

/-- Modelled from the spec: the little-endian assembly of a list of bytes,
least significant byte first (used as the comparison value for the RAM/ROM
read claim). -/
def le_assemble : List Nat → Nat
  | [] => 0
  | b :: rest => b + 256 * le_assemble rest

/-! ### Bit-level helper lemmas -/

theorem and_shiftLeft_comm (p m k : Nat) :
    p &&& (m <<< k) = ((p >>> k) &&& m) <<< k := by
  apply Nat.eq_of_testBit_eq
  intro i
  rw [Nat.testBit_and, Nat.testBit_shiftLeft, Nat.testBit_shiftLeft,
    Nat.testBit_and, Nat.testBit_shiftRight]
  by_cases hi : k ≤ i
  · have h2 : k + (i - k) = i := by omega
    rw [h2]
    simp [hi]
  · simp [hi]

theorem lor_shiftLeft_eq_add (a b k : Nat) (ha : a < 2 ^ k) :
    a ||| (b <<< k) = 2 ^ k * b + a := by
  apply Nat.eq_of_testBit_eq
  intro i
  rw [Nat.testBit_lor, Nat.testBit_shiftLeft, Nat.testBit_mul_pow_two_add b ha i]
  by_cases hi : k ≤ i
  · have hfalse : a.testBit i = false :=
      Nat.testBit_eq_false_of_lt (lt_of_lt_of_le ha (Nat.pow_le_pow_right (by norm_num) hi))
    simp [hi, hfalse, Nat.not_lt.mpr hi]
  · simp [hi, Nat.lt_of_not_le hi]

theorem and_mask_fffffffc (p : Nat) (hp : p < 2 ^ 32) :
    p &&& 0xFFFFFFFC = 4 * (p / 4) := by
  have hm : (0xFFFFFFFC : Nat) = 0x3FFFFFFF <<< 2 := by
    norm_num [Nat.shiftLeft_eq]
  rw [hm, and_shiftLeft_comm, Nat.shiftRight_eq_div_pow]
  have h30 : (0x3FFFFFFF : Nat) = 2 ^ 30 - 1 := by norm_num
  rw [h30, Nat.and_pow_two_sub_one_eq_mod, Nat.shiftLeft_eq]
  have hlt : p / 2 ^ 2 < 2 ^ 30 := by omega
  rw [Nat.mod_eq_of_lt hlt]
  omega

theorem and_mask_mod (p k : Nat) : p &&& (2 ^ k - 1) = p % 2 ^ k :=
  Nat.and_pow_two_sub_one_eq_mod p k

theorem shr12_and7 (p : Nat) : (p >>> 12) &&& 7 = (p / 4096) % 8 := by
  rw [Nat.shiftRight_eq_div_pow]
  have h7 : (7 : Nat) = 2 ^ 3 - 1 := by norm_num
  rw [h7, and_mask_mod]
  norm_num

theorem and_0x7000_eq (p : Nat) : p &&& 0x7000 = ((p / 4096) % 8) * 4096 := by
  have hm : (0x7000 : Nat) = 7 <<< 12 := by norm_num [Nat.shiftLeft_eq]
  rw [hm, and_shiftLeft_comm, shr12_and7, Nat.shiftLeft_eq]

theorem and_0x7000_iff (p : Nat) : p &&& 0x7000 = 0x7000 ↔ (p / 4096) % 8 = 7 := by
  rw [and_0x7000_eq]
  omega

theorem ofSigned_toSigned (a : Nat) (ha : a < 2 ^ 32) : ofSigned (toSigned a) = a := by
  unfold ofSigned toSigned
  split <;> omega

theorem toSigned_eq_zero_iff (a : Nat) (ha : a < 2 ^ 32) : toSigned a = 0 ↔ a = 0 := by
  unfold toSigned
  split <;> omega

theorem toSigned_eq_int_min_iff (a : Nat) (ha : a < 2 ^ 32) :
    toSigned a = -2147483648 ↔ a = 0x80000000 := by
  unfold toSigned
  split <;> omega

theorem toSigned_eq_neg_one_iff (a : Nat) (ha : a < 2 ^ 32) :
    toSigned a = -1 ↔ a = 0xffffffff := by
  unfold toSigned
  split <;> omega

theorem and_fffffffe_even (x : Nat) : (x &&& 0xFFFFFFFE) % 2 = 0 := by
  have hm : (0xFFFFFFFE : Nat) = 0x7FFFFFFF <<< 1 := by
    norm_num [Nat.shiftLeft_eq]
  rw [hm, and_shiftLeft_comm, Nat.shiftLeft_eq, pow_one]
  omega

theorem mod_index_ne (addr l s t : Nat) (hst : s < t) (hd : t - s < l) :
    (addr + s) % l ≠ (addr + t) % l := by
  intro heq
  have hmod : Nat.ModEq l (addr + s) (addr + t) := heq
  have hdvd := hmod.dvd
  have h2 : (l : Int) ∣ ((t : Int) - (s : Int)) := by
    have hcast : ((addr + t : Nat) : Int) - ((addr + s : Nat) : Int) =
        (t : Int) - (s : Int) := by
      push_cast
      ring
    rwa [hcast] at hdvd
  have h3 : (l : Int) ≤ (t : Int) - (s : Int) := Int.le_of_dvd (by omega) h2
  omega

theorem bytes_getD_lt (buf : List Nat) (hb : ∀ b ∈ buf, b < 256) (i : Nat) :
    buf.getD i 0 < 256 := by
  by_cases hi : i < buf.length
  · rw [List.getD_eq_getElem buf 0 hi]
    exact hb _ (buf.getElem_mem hi)
  · rw [List.getD_eq_default buf 0 (by omega)]
    norm_num

theorem le_assemble_lt (xs : List Nat) (hx : ∀ x ∈ xs, x < 256) :
    le_assemble xs < 256 ^ xs.length := by
  induction xs with
  | nil => simp [le_assemble]
  | cons b rest ih =>
    have hb : b < 256 := hx b (List.mem_cons_self b rest)
    have hr : le_assemble rest < 256 ^ rest.length :=
      ih fun x hxm => hx x (List.mem_cons_of_mem b hxm)
    simp only [le_assemble, List.length_cons, pow_succ]
    have h1 : 256 * le_assemble rest ≤ 256 * (256 ^ rest.length - 1) :=
      Nat.mul_le_mul_left 256 (by omega)
    omega

theorem le_assemble_append (xs : List Nat) (y : Nat) :
    le_assemble (xs ++ [y]) = le_assemble xs + 256 ^ xs.length * y := by
  induction xs with
  | nil => simp [le_assemble]
  | cons b rest ih =>
    rw [List.cons_append]
    simp only [le_assemble]
    rw [ih, List.length_cons, pow_succ]
    ring

theorem readBytesAcc_eq (buf : List Nat) (addr : Nat)
    (hb : ∀ b ∈ buf, b < 256) (n : Nat) :
    readBytesAcc buf addr n =
      le_assemble ((List.range n).map fun s => buf.getD ((addr + s) % buf.length) 0) := by
  induction n with
  | zero => rfl
  | succ n ih =>
    have hlen : ((List.range n).map
        fun s => buf.getD ((addr + s) % buf.length) 0).length = n := by
      simp
    have hlt : le_assemble ((List.range n).map
        fun s => buf.getD ((addr + s) % buf.length) 0) < 2 ^ (n * 8) := by
      have h256 : (256 : Nat) ^ n = 2 ^ (n * 8) := by
        rw [show (256 : Nat) = 2 ^ 8 from rfl, ← pow_mul, Nat.mul_comm]
      rw [← h256]
      have := le_assemble_lt ((List.range n).map
        fun s => buf.getD ((addr + s) % buf.length) 0)
        (by
          intro x hxm
          rcases List.mem_map.mp hxm with ⟨s, _, rfl⟩
          exact bytes_getD_lt buf hb _)
      rwa [hlen] at this
    rw [readBytesAcc, ih, List.range_succ, List.map_append, List.map_singleton,
      le_assemble_append, hlen,
      lor_shiftLeft_eq_add _ _ _ hlt]
    have h256 : (256 : Nat) ^ n = 2 ^ (n * 8) := by
      rw [show (256 : Nat) = 2 ^ 8 from rfl, ← pow_mul, Nat.mul_comm]
    rw [h256]
    ring

theorem writeBytesAcc_length (buf : List Nat) (l addr data : Nat) (n : Nat) :
    (writeBytesAcc buf l addr data n).length = buf.length := by
  induction n with
  | zero => rfl
  | succ n ih => simp [writeBytesAcc, List.length_set, ih]

theorem writeBytesAcc_getD_miss (buf : List Nat) (l addr data : Nat) (n i : Nat)
    (hmiss : ∀ s, s < n → (addr + s) % l ≠ i) :
    (writeBytesAcc buf l addr data n).getD i 0 = buf.getD i 0 := by
  induction n with
  | zero => rfl
  | succ n ih =>
    have hne : (addr + n) % l ≠ i := hmiss n (Nat.lt_succ_self n)
    have hstep : ((writeBytesAcc buf l addr data n).set ((addr + n) % l)
        ((data >>> (n * 8)) &&& 0xff)).getD i 0 =
        (writeBytesAcc buf l addr data n).getD i 0 := by
      simp [List.getD, List.getElem?_set, hne]
    simp only [writeBytesAcc]
    rw [hstep]
    exact ih fun s hs => hmiss s (Nat.lt_succ_of_lt hs)

theorem writeBytesAcc_getD_hit (buf : List Nat) (addr data : Nat)
    (hl : 0 < buf.length) (n : Nat) (hn : n ≤ buf.length) (s : Nat) (hs : s < n) :
    (writeBytesAcc buf buf.length addr data n).getD ((addr + s) % buf.length) 0 =
      (data >>> (s * 8)) &&& 0xff := by
  induction n with
  | zero => omega
  | succ n ih =>
    by_cases hsn : s = n
    · subst hsn
      have hidx : (addr + s) % buf.length <
          (writeBytesAcc buf buf.length addr data s).length := by
        rw [writeBytesAcc_length]
        exact Nat.mod_lt _ hl
      simp only [writeBytesAcc]
      simp [List.getD, List.getElem?_set, hidx]
    · have hslt : s < n := by omega
      have hne : (addr + n) % buf.length ≠ (addr + s) % buf.length :=
        (mod_index_ne addr buf.length s n hslt (by omega)).symm
      have hstep : ((writeBytesAcc buf buf.length addr data n).set
          ((addr + n) % buf.length) ((data >>> (n * 8)) &&& 0xff)).getD
          ((addr + s) % buf.length) 0 =
          (writeBytesAcc buf buf.length addr data n).getD
            ((addr + s) % buf.length) 0 := by
        simp [List.getD, List.getElem?_set, hne]
      simp only [writeBytesAcc]
      rw [hstep]
      exact ih (by omega) hslt

theorem exec_branch_binary_cond_pc {Mem : Type} (h : SingleThreadUserHart Mem)
    (inst : Instruction) (rs1 rs2 : Fin 32) (simm : Int)
    (cb : Nat → Nat → Bool) :
    (exec_branch_binary_cond h inst rs1 rs2 simm cb).1.pc =
      if cb (h.int_regs rs1) (h.int_regs rs2) then wrap32 (inst.pc + ofSigned simm)
      else h.pc := by
  unfold exec_branch_binary_cond SingleThreadUserHart.read_int_register
    SingleThreadUserHart.write_pc
  cases hcb : cb (h.int_regs rs1) (h.int_regs rs2) <;> simp [hcb]

end RiscvEmu

namespace RiscvEmu

/-! ### Claim theorems -/

/-- C1: the claim states that a fetch fault of kind `AccessFault` raises
`InstructionAccessFault`.  Evaluating the fetch-fault path of `step_rv32`
at that failing input shows the source's inline conversion instead raises
`InstructionPageFault` (cause code 12), contradicting the repository's own
`MemoryError::as_code_load_cause`; the data-load and data-store
conversions used by `exec_load_mem`/`exec_store_mem` do match the claim
(`LoadAccessFault`, `StoreAccessFault`), and the step returns `Running`. -/
theorem c1_fetch_access_fault_raises_page_fault :
    (step_rv32_fetch_fault hart0 MemoryError.AccessFault).1.csrs.ucause =
        ExceptionCause.InstructionPageFault.code ∧
    step_rv32_fetch_cause .AccessFault ≠ .InstructionAccessFault ∧
    MemoryError.as_code_load_cause .AccessFault = .InstructionAccessFault ∧
    (step_rv32_fetch_fault hart0 MemoryError.AccessFault).2 = .Running ∧
    (exec_load_mem hart0 1 2 0 fun m _ => (.error .AccessFault, m)).1.csrs.ucause =
        ExceptionCause.LoadAccessFault.code ∧
    (exec_store_mem hart0 1 2 0 fun m _ _ => (.error .AccessFault, m)).1.csrs.ucause =
        ExceptionCause.StoreAccessFault.code :=
  ⟨rfl, by decide, rfl, rfl, rfl, rfl⟩

/-- C2: the claim states that `Registers::write_int` applied to register 0
leaves the register-file state unchanged.  Evaluating the source at the
failing input (a write of 5 to register 0 of a fresh file) shows slot 0 of
the backing array becomes 5 — the guard in the source has an empty body, so
the store runs unconditionally — while `read_int 0` still reads zero
because the read side masks the slot. -/
theorem c2_write_int_zero_mutates_the_file :
    (Registers.new.write_int 0 5).int 0 = 5 ∧
    Registers.new.int 0 = 0 ∧
    (Registers.new.write_int 0 5).read_int 0 = 0 ∧
    (∀ (rs : Registers) (v : Nat),
      (rs.write_int 0 v).int 0 = v ∧ (rs.write_int 0 v).read_int 0 = 0) :=
  ⟨rfl, rfl, rfl, fun _ _ => ⟨rfl, rfl⟩⟩

/-- C8: for every hart state and cause, `exception` sets the PC to the
trap vector base `utvec & ~0b11` — equivalently, `utvec` with its two low
bits cleared, `4 * (utvec / 4)` — and records the cause's numeric code in
the `ucause` CSR. -/
theorem c8_exception_sets_pc_and_cause {Mem : Type}
    (h : SingleThreadUserHart Mem) (cause : ExceptionCause)
    (hv : h.csrs.utvec < 2 ^ 32) :
    (h.exception cause).pc = h.csrs.utvec &&& 0xFFFFFFFC ∧
    (h.exception cause).pc = 4 * (h.csrs.utvec / 4) ∧
    (h.exception cause).csrs.ucause = cause.code :=
  ⟨rfl, and_mask_fffffffc h.csrs.utvec hv, rfl⟩

/-- Witness for C8 at a concrete hart and cause. -/
theorem c8_exception_sets_pc_and_cause_witness :
    (hart0.exception .Breakpoint).pc = hart0.csrs.utvec &&& 0xFFFFFFFC ∧
    (hart0.exception .Breakpoint).pc = 4 * (hart0.csrs.utvec / 4) ∧
    (hart0.exception .Breakpoint).csrs.ucause = ExceptionCause.Breakpoint.code :=
  c8_exception_sets_pc_and_cause hart0 .Breakpoint (by decide)

/-- C10: `exception` modifies only the program counter and the `ucause`
CSR: the integer registers, float registers, memory bus, and every other
CSR field (`ustatus`, `uie`, `utvec`, `uscratch`, `uepc`, `utval`, `uip`,
`fflags`, `frm`) are unchanged. -/
theorem c10_exception_frame {Mem : Type}
    (h : SingleThreadUserHart Mem) (cause : ExceptionCause) :
    (h.exception cause).int_regs = h.int_regs ∧
    (h.exception cause).float_regs = h.float_regs ∧
    (h.exception cause).mem = h.mem ∧
    (h.exception cause).csrs.ustatus = h.csrs.ustatus ∧
    (h.exception cause).csrs.uie = h.csrs.uie ∧
    (h.exception cause).csrs.utvec = h.csrs.utvec ∧
    (h.exception cause).csrs.uscratch = h.csrs.uscratch ∧
    (h.exception cause).csrs.uepc = h.csrs.uepc ∧
    (h.exception cause).csrs.utval = h.csrs.utval ∧
    (h.exception cause).csrs.uip = h.csrs.uip ∧
    (h.exception cause).csrs.fflags = h.csrs.fflags ∧
    (h.exception cause).csrs.frm = h.csrs.frm :=
  ⟨rfl, rfl, rfl, rfl, rfl, rfl, rfl, rfl, rfl, rfl, rfl, rfl⟩

/-- C9: NaN boxing round trip.  For every 32-bit single-precision bit
pattern `s`, `from_single` stores `s` in the low half with all ones in the
high half, `to_single` recovers `s` exactly (so in particular the IEEE
round trip holds for every finite `s`, the bit patterns being identical),
the stored pattern reads back as a quiet NaN under `to_double` (exponent
field all ones, top mantissa bit set), and `from_double`/`to_double` is the
identity on every 64-bit pattern `d`. -/
theorem c9_nan_boxing_round_trip (s d : Nat) (hs : s < 2 ^ 32) :
    float_from_single s % 2 ^ 32 = s ∧
    float_from_single s / 2 ^ 32 = 2 ^ 32 - 1 ∧
    float_to_single (float_from_single s) = s ∧
    is_quiet_nan64 (float_to_double (float_from_single s)) ∧
    float_to_double (float_from_double d) = d := by
  have key : float_from_single s = 2 ^ 32 * 0xffffffff + s := by
    unfold float_from_single
    have hm : (0xffffffff00000000 : Nat) = 0xffffffff <<< 32 := by
      norm_num [Nat.shiftLeft_eq]
    rw [hm, lor_shiftLeft_eq_add s 0xffffffff 32 hs]
  unfold float_to_single float_to_double float_from_double is_quiet_nan64
  rw [key]
  refine ⟨by omega, by omega, by omega, ⟨by omega, by omega⟩, rfl⟩

/-- Witness for C9 at a concrete single bit pattern and double pattern. -/
theorem c9_nan_boxing_round_trip_witness :
    float_from_single 0x3f99999a % 2 ^ 32 = 0x3f99999a ∧
    float_from_single 0x3f99999a / 2 ^ 32 = 2 ^ 32 - 1 ∧
    float_to_single (float_from_single 0x3f99999a) = 0x3f99999a ∧
    is_quiet_nan64 (float_to_double (float_from_single 0x3f99999a)) ∧
    float_to_double (float_from_double 0x3ff3333333333333) = 0x3ff3333333333333 :=
  c9_nan_boxing_round_trip 0x3f99999a 0x3ff3333333333333 (by norm_num)

/-- C4: division and remainder semantics of the M extension on RV32, as
implemented by the callbacks of `exec_div`/`exec_divu`/`exec_rem`/
`exec_remu`: division by zero yields all ones for `Div`/`Divu` and the
dividend for `Rem`/`Remu`; the signed overflow case `INT_MIN / -1` yields
`INT_MIN` for `Div` and `0` for `Rem`; every other case is the truncating
signed quotient/remainder (`Int.tdiv`/`Int.tmod`, matching Rust `i32`
division) or the plain unsigned quotient/remainder. -/
theorem c4_div_rem_semantics (a b : Nat) (ha : a < 2 ^ 32) (hb : b < 2 ^ 32) :
    (b = 0 → div_op a b = 0xffffffff ∧ divu_op a b = 0xffffffff ∧
      rem_op a b = a ∧ remu_op a b = a) ∧
    (a = 0x80000000 ∧ b = 0xffffffff →
      div_op a b = 0x80000000 ∧ rem_op a b = 0) ∧
    (b ≠ 0 → ¬(a = 0x80000000 ∧ b = 0xffffffff) →
      div_op a b = ofSigned ((toSigned a).tdiv (toSigned b)) ∧
      rem_op a b = ofSigned ((toSigned a).tmod (toSigned b)) ∧
      divu_op a b = a / b ∧ remu_op a b = a % b) := by
  refine ⟨?_, ?_, ?_⟩
  · intro hb0
    subst hb0
    refine ⟨rfl, rfl, ?_, rfl⟩
    have hr : rem_op a 0 = ofSigned (toSigned a) := rfl
    rw [hr]
    exact ofSigned_toSigned a ha
  · rintro ⟨ha0, hb0⟩
    subst ha0
    subst hb0
    exact ⟨by decide, by decide⟩
  · intro hbne hnot
    have hbw : ¬(toSigned b = 0) := fun hcontra =>
      hbne ((toSigned_eq_zero_iff b hb).mp hcontra)
    have hmin : ¬(toSigned a = -2147483648 ∧ toSigned b = -1) := by
      rintro ⟨h1, h2⟩
      exact hnot ⟨(toSigned_eq_int_min_iff a ha).mp h1,
        (toSigned_eq_neg_one_iff b hb).mp h2⟩
    refine ⟨?_, ?_, ?_, ?_⟩
    · simp only [div_op, if_neg hbw, if_neg hmin]
    · simp only [rem_op, if_neg hbw, if_neg hmin]
    · simp only [divu_op, if_neg hbne]
    · simp only [remu_op, if_neg hbne]

/-- Witness for C4 at the concrete division-by-zero input `a = 7`,
`b = 0`. -/
theorem c4_div_rem_semantics_witness :
    div_op 7 0 = 0xffffffff ∧ divu_op 7 0 = 0xffffffff ∧
    rem_op 7 0 = 7 ∧ remu_op 7 0 = 7 :=
  (c4_div_rem_semantics 7 0 (by norm_num) (by norm_num)).1 rfl

/-- C6: for every 16-bit low parcel, `instruction_length` follows the
RISC-V length-encoding rule exactly as the claim states it: 2 bytes when
bits `[1:0] ≠ 11`; else 4 when `[4:0] ≠ 11111`; else 6 when
`[5:0] = 011111`; else 8 when `[6:0] = 0111111`; else `10 + 2·[14:12]`
when `[6:0] = 1111111` and `[14:12] ≠ 111`; and 0 (reserved) otherwise —
with the bit fields read arithmetically in `instruction_length_spec`. -/
theorem c6_instruction_length_classification (p : Nat) (_hp : p < 2 ^ 16) :
    instruction_length p = instruction_length_spec p := by
  unfold instruction_length instruction_length_spec
  have e1 : p &&& 3 = p % 4 := by simpa using and_mask_mod p 2
  have e2 : p &&& 31 = p % 32 := by simpa using and_mask_mod p 5
  have e3 : p &&& 63 = p % 64 := by simpa using and_mask_mod p 6
  have e4 : p &&& 127 = p % 128 := by simpa using and_mask_mod p 7
  simp only [ne_eq, e1, e2, e3, e4, and_0x7000_iff p, shr12_and7 p, Nat.mul_comm]

/-- Witness for C6 at the reserved parcel `0b0111000001111111` (length 0)
per the source's own test table. -/
theorem c6_instruction_length_classification_witness :
    instruction_length 0b0111000001111111 = instruction_length_spec 0b0111000001111111 :=
  c6_instruction_length_classification 0b0111000001111111 (by norm_num)

/-- C5: PC semantics of branches and jumps after one step.  The hart's PC
is first pre-advanced by the decoded length (as `step_rv32` does before
dispatch, with the instruction context carrying the fetch PC); then a
branch leaves the pre-advanced PC (instruction PC plus length, wrapping)
when its condition is false and sets instruction PC plus the
sign-converted immediate (wrapping) when true; `Jal` writes instruction PC
plus length to `rd` and jumps to instruction PC plus immediate; `Jalr`
writes the same return address to `rd` and jumps to `rs1` plus immediate
with the low bit cleared (an even address). -/
theorem c5_branch_jump_pc_semantics {Mem : Type} (h : SingleThreadUserHart Mem)
    (len : Nat) (rs1 rs2 rd : Fin 32) (simm : Int) (hrd : rd.val ≠ 0) :
    (exec_beq (step_rv32_pre_advance h len) ⟨h.pc, len⟩ rs1 rs2 simm).1.pc =
      (if h.int_regs rs1 = h.int_regs rs2 then wrap32 (h.pc + ofSigned simm)
       else wrap32 (h.pc + len)) ∧
    (exec_bne (step_rv32_pre_advance h len) ⟨h.pc, len⟩ rs1 rs2 simm).1.pc =
      (if h.int_regs rs1 = h.int_regs rs2 then wrap32 (h.pc + len)
       else wrap32 (h.pc + ofSigned simm)) ∧
    (exec_blt (step_rv32_pre_advance h len) ⟨h.pc, len⟩ rs1 rs2 simm).1.pc =
      (if toSigned (h.int_regs rs1) < toSigned (h.int_regs rs2) then
        wrap32 (h.pc + ofSigned simm)
       else wrap32 (h.pc + len)) ∧
    (exec_bge (step_rv32_pre_advance h len) ⟨h.pc, len⟩ rs1 rs2 simm).1.pc =
      (if toSigned (h.int_regs rs2) ≤ toSigned (h.int_regs rs1) then
        wrap32 (h.pc + ofSigned simm)
       else wrap32 (h.pc + len)) ∧
    (exec_bltu (step_rv32_pre_advance h len) ⟨h.pc, len⟩ rs1 rs2 simm).1.pc =
      (if h.int_regs rs1 < h.int_regs rs2 then wrap32 (h.pc + ofSigned simm)
       else wrap32 (h.pc + len)) ∧
    (exec_bgeu (step_rv32_pre_advance h len) ⟨h.pc, len⟩ rs1 rs2 simm).1.pc =
      (if h.int_regs rs2 ≤ h.int_regs rs1 then wrap32 (h.pc + ofSigned simm)
       else wrap32 (h.pc + len)) ∧
    (exec_jal (step_rv32_pre_advance h len) ⟨h.pc, len⟩ rd simm).1.pc =
      wrap32 (h.pc + ofSigned simm) ∧
    (exec_jal (step_rv32_pre_advance h len) ⟨h.pc, len⟩ rd simm).1.int_regs rd =
      wrap32 (h.pc + len) ∧
    (exec_jalr (step_rv32_pre_advance h len) ⟨h.pc, len⟩ rd rs1 simm).1.pc =
      wrap32 (h.int_regs rs1 + ofSigned simm) &&& 0xFFFFFFFE ∧
    (exec_jalr (step_rv32_pre_advance h len) ⟨h.pc, len⟩ rd rs1 simm).1.pc % 2 = 0 ∧
    (exec_jalr (step_rv32_pre_advance h len) ⟨h.pc, len⟩ rd rs1 simm).1.int_regs rd =
      wrap32 (h.pc + len) := by
  refine ⟨?_, ?_, ?_, ?_, ?_, ?_, ?_, ?_, ?_, ?_, ?_⟩
  · rw [exec_beq, exec_branch_binary_cond_pc]
    simp [step_rv32_pre_advance, SingleThreadUserHart.write_pc, wrap32]
  · rw [exec_bne, exec_branch_binary_cond_pc]
    by_cases hc : h.int_regs rs1 = h.int_regs rs2 <;>
      simp [hc, step_rv32_pre_advance, SingleThreadUserHart.write_pc, wrap32]
  · rw [exec_blt, exec_branch_binary_cond_pc]
    simp [step_rv32_pre_advance, SingleThreadUserHart.write_pc, wrap32]
  · rw [exec_bge, exec_branch_binary_cond_pc]
    simp [step_rv32_pre_advance, SingleThreadUserHart.write_pc, wrap32]
  · rw [exec_bltu, exec_branch_binary_cond_pc]
    simp [step_rv32_pre_advance, SingleThreadUserHart.write_pc, wrap32]
  · rw [exec_bgeu, exec_branch_binary_cond_pc]
    simp [step_rv32_pre_advance, SingleThreadUserHart.write_pc, wrap32]
  · rfl
  · simp [exec_jal, SingleThreadUserHart.write_pc,
      SingleThreadUserHart.write_int_register, hrd]
  · simp [exec_jalr, SingleThreadUserHart.write_pc, SingleThreadUserHart.read_int_register,
      SingleThreadUserHart.write_int_register, hrd, step_rv32_pre_advance]
  · have hpc : (exec_jalr (step_rv32_pre_advance h len) ⟨h.pc, len⟩ rd rs1 simm).1.pc =
        wrap32 (h.int_regs rs1 + ofSigned simm) &&& 0xFFFFFFFE := by
      simp [exec_jalr, SingleThreadUserHart.write_pc, SingleThreadUserHart.read_int_register,
        SingleThreadUserHart.write_int_register, hrd, step_rv32_pre_advance]
    rw [hpc]
    exact and_fffffffe_even _
  · simp [exec_jalr, SingleThreadUserHart.write_pc, SingleThreadUserHart.read_int_register,
      SingleThreadUserHart.write_int_register, hrd, step_rv32_pre_advance]

/-- Witness for C5: a hart with `x1 = 8`, `x2 = 8` at PC `0x100`, a 4-byte
branch/jump with immediate 12, destination register `x5`. -/
theorem c5_branch_jump_pc_semantics_witness :
    (exec_beq (step_rv32_pre_advance hart5 4) ⟨hart5.pc, 4⟩ 1 2 12).1.pc =
      (if hart5.int_regs 1 = hart5.int_regs 2 then wrap32 (hart5.pc + ofSigned 12)
       else wrap32 (hart5.pc + 4)) ∧
    (exec_bne (step_rv32_pre_advance hart5 4) ⟨hart5.pc, 4⟩ 1 2 12).1.pc =
      (if hart5.int_regs 1 = hart5.int_regs 2 then wrap32 (hart5.pc + 4)
       else wrap32 (hart5.pc + ofSigned 12)) ∧
    (exec_blt (step_rv32_pre_advance hart5 4) ⟨hart5.pc, 4⟩ 1 2 12).1.pc =
      (if toSigned (hart5.int_regs 1) < toSigned (hart5.int_regs 2) then
        wrap32 (hart5.pc + ofSigned 12)
       else wrap32 (hart5.pc + 4)) ∧
    (exec_bge (step_rv32_pre_advance hart5 4) ⟨hart5.pc, 4⟩ 1 2 12).1.pc =
      (if toSigned (hart5.int_regs 2) ≤ toSigned (hart5.int_regs 1) then
        wrap32 (hart5.pc + ofSigned 12)
       else wrap32 (hart5.pc + 4)) ∧
    (exec_bltu (step_rv32_pre_advance hart5 4) ⟨hart5.pc, 4⟩ 1 2 12).1.pc =
      (if hart5.int_regs 1 < hart5.int_regs 2 then wrap32 (hart5.pc + ofSigned 12)
       else wrap32 (hart5.pc + 4)) ∧
    (exec_bgeu (step_rv32_pre_advance hart5 4) ⟨hart5.pc, 4⟩ 1 2 12).1.pc =
      (if hart5.int_regs 2 ≤ hart5.int_regs 1 then wrap32 (hart5.pc + ofSigned 12)
       else wrap32 (hart5.pc + 4)) ∧
    (exec_jal (step_rv32_pre_advance hart5 4) ⟨hart5.pc, 4⟩ 5 12).1.pc =
      wrap32 (hart5.pc + ofSigned 12) ∧
    (exec_jal (step_rv32_pre_advance hart5 4) ⟨hart5.pc, 4⟩ 5 12).1.int_regs 5 =
      wrap32 (hart5.pc + 4) ∧
    (exec_jalr (step_rv32_pre_advance hart5 4) ⟨hart5.pc, 4⟩ 5 1 12).1.pc =
      wrap32 (hart5.int_regs 1 + ofSigned 12) &&& 0xFFFFFFFE ∧
    (exec_jalr (step_rv32_pre_advance hart5 4) ⟨hart5.pc, 4⟩ 5 1 12).1.pc % 2 = 0 ∧
    (exec_jalr (step_rv32_pre_advance hart5 4) ⟨hart5.pc, 4⟩ 5 1 12).1.int_regs 5 =
      wrap32 (hart5.pc + 4) :=
  c5_branch_jump_pc_semantics hart5 4 1 2 5 12 (by decide)

/-- C3: the claim states that `Csrrs` reads the old CSR value into `rd`
and then writes a computed value back unless `rs1 = 0`.  In the source,
the `rs1 ≠ 0` arm of `exec_csrrs` — and `exec_csrrw` entirely — are TODO
stubs that raise `IllegalInstruction` for any hart, performing no CSR read
or write: on a hart that does support CSRs (every CSR holds 7), `Csrrs`
with `rd = x1`, `rs1 = x1` leaves `rd` at 0 and records
`IllegalInstruction`.  The clause of the claim that does hold is also
evaluated: a CSR op naming an unsupported CSR (every CSR of
`SingleThreadUserHart`) raises `IllegalInstruction` (cause code 2) and the
step returns `Running`. -/
theorem c3_csr_executors_are_stubs :
    (∀ (H : Type) (ops : HartOps H) (h : H) (rd rs1 : Fin 32) (csr : Nat),
      rs1.val ≠ 0 →
      exec_csrrs ops h rd rs1 csr = (ops.exception h .IllegalInstruction, .Running)) ∧
    (∀ (H : Type) (ops : HartOps H) (h : H) (rd rs1 : Fin 32) (csr : Nat),
      exec_csrrw ops h rd rs1 csr = (ops.exception h .IllegalInstruction, .Running)) ∧
    (exec_csrrs testCsrHartOps testCsrHart0 1 1 0).1.int_regs 1 = 0 ∧
    (exec_csrrs testCsrHartOps testCsrHart0 1 1 0).1.trapped = [.IllegalInstruction] ∧
    testCsrHart0.csr_file 0 = 7 ∧
    (exec_csrrs (singleThreadUserHartOps Unit) hart0 1 0 0).1.csrs.ucause =
      ExceptionCause.IllegalInstruction.code ∧
    (exec_csrrs (singleThreadUserHartOps Unit) hart0 1 0 0).2 = .Running ∧
    (exec_csrrw (singleThreadUserHartOps Unit) hart0 1 1 0).1.csrs.ucause =
      ExceptionCause.IllegalInstruction.code := by
  refine ⟨?_, ?_, rfl, rfl, rfl, rfl, rfl, rfl⟩
  · intro H ops h rd rs1 csr hrs1
    unfold exec_csrrs
    rw [if_neg hrs1]
  · intro H ops h rd rs1 csr
    rfl

/-- C7: the RAM/ROM adapter.  For a non-empty byte buffer, a read of `n`
bytes at any address `addr` succeeds (never faults, however misaligned)
and returns the little-endian assembly of the bytes at the wrapped indices
`(addr + s) % L` for `s < n`; a RAM write succeeds and stores the value's
bytes little-endian at those indices, leaving every other index unchanged;
and a ROM write returns `AccessFault` with the memory unchanged.  The
write clauses assume `n ≤ L` so that the `n` wrapped indices are distinct,
as they are for the source's access widths on any buffer at least as large
as the access. -/
theorem c7_ram_rom_wrap_little_endian (buf : List Nat) (addr data n : Nat)
    (hL : 0 < buf.length) (hbytes : ∀ b ∈ buf, b < 256) (hn : n ≤ buf.length) :
    (∀ w : Bool, Memory.read_bytes ⟨buf, w⟩ addr n =
      .ok (le_assemble ((List.range n).map
        fun s => buf.getD ((addr + s) % buf.length) 0))) ∧
    (Memory.write_bytes (Memory.new_ram buf) addr data n).1 = .ok () ∧
    (∀ s, s < n →
      (Memory.write_bytes (Memory.new_ram buf) addr data n).2.buf.getD
        ((addr + s) % buf.length) 0 = (data >>> (s * 8)) &&& 0xff) ∧
    (∀ i, (∀ s, s < n → (addr + s) % buf.length ≠ i) →
      (Memory.write_bytes (Memory.new_ram buf) addr data n).2.buf.getD i 0 =
        buf.getD i 0) ∧
    Memory.write_bytes (Memory.new_rom buf) addr data n =
      (.error .AccessFault, Memory.new_rom buf) := by
  refine ⟨?_, rfl, ?_, ?_, rfl⟩
  · intro w
    unfold Memory.read_bytes
    rw [readBytesAcc_eq buf addr hbytes n]
  · intro s hs
    exact writeBytesAcc_getD_hit buf addr data hL n hn s hs
  · intro i hmiss
    exact writeBytesAcc_getD_miss buf buf.length addr data n i hmiss

/-- Witness for C7 on the four-byte RAM/ROM buffer `[17, 34, 51, 68]`,
reading and writing four bytes at the misaligned, wrapping address 2. -/
theorem c7_ram_rom_wrap_little_endian_witness :
    Memory.read_bytes ⟨[17, 34, 51, 68], true⟩ 2 4 =
      .ok (le_assemble ((List.range 4).map
        fun s => [17, 34, 51, 68].getD ((2 + s) % [17, 34, 51, 68].length) 0)) ∧
    (Memory.write_bytes (Memory.new_ram [17, 34, 51, 68]) 2 0xddccbbaa 4).1 = .ok () ∧
    (Memory.write_bytes (Memory.new_ram [17, 34, 51, 68]) 2 0xddccbbaa 4).2.buf.getD
      ((2 + 1) % [17, 34, 51, 68].length) 0 = (0xddccbbaa >>> (1 * 8)) &&& 0xff ∧
    (Memory.write_bytes (Memory.new_ram [17, 34, 51, 68]) 2 0xddccbbaa 4).2.buf.getD 7 0 =
      [17, 34, 51, 68].getD 7 0 ∧
    Memory.write_bytes (Memory.new_rom [17, 34, 51, 68]) 2 0xddccbbaa 4 =
      (.error .AccessFault, Memory.new_rom [17, 34, 51, 68]) :=
  ⟨(c7_ram_rom_wrap_little_endian [17, 34, 51, 68] 2 0xddccbbaa 4
      (by decide) (by decide) (by decide)).1 true,
   (c7_ram_rom_wrap_little_endian [17, 34, 51, 68] 2 0xddccbbaa 4
      (by decide) (by decide) (by decide)).2.1,
   (c7_ram_rom_wrap_little_endian [17, 34, 51, 68] 2 0xddccbbaa 4
      (by decide) (by decide) (by decide)).2.2.1 1 (by decide),
   (c7_ram_rom_wrap_little_endian [17, 34, 51, 68] 2 0xddccbbaa 4
      (by decide) (by decide) (by decide)).2.2.2.1 7 (by decide),
   (c7_ram_rom_wrap_little_endian [17, 34, 51, 68] 2 0xddccbbaa 4
      (by decide) (by decide) (by decide)).2.2.2.2⟩

/-- Witness for C3 at concrete registers `rd = x2`, `rs1 = x3`, CSR 5, on
the CSR-supporting test hart. -/
theorem c3_csr_executors_are_stubs_witness :
    exec_csrrs testCsrHartOps testCsrHart0 2 3 5 =
      (testCsrHartOps.exception testCsrHart0 .IllegalInstruction, .Running) ∧
    exec_csrrw testCsrHartOps testCsrHart0 2 3 5 =
      (testCsrHartOps.exception testCsrHart0 .IllegalInstruction, .Running) :=
  ⟨c3_csr_executors_are_stubs.1 TestCsrHart testCsrHartOps testCsrHart0 2 3 5 (by decide),
   c3_csr_executors_are_stubs.2.1 TestCsrHart testCsrHartOps testCsrHart0 2 3 5⟩

end RiscvEmu
